import Mathlib

/-!
Shallow embedding of the analytic core of pyICU (`pyICU/utils.py`).

Timestamps are modelled as rational numbers of seconds; `pd.Timedelta(hours=h)`
becomes `3600 * h`.  Dataframes become lists of rows; `pd.merge` becomes an
explicit join on the sample key; `groupby(...).agg` becomes a map over the
sorted, deduplicated keys.  Pandas `.unique()` and `drop_duplicates()` both
keep the first occurrence of each element, which `dropDups` reproduces.
-/

namespace PyICU

/-! ### `is_timestamp` (utils.py 16-20)

The Python code evaluates `re.match(r"\d{4}-\d{2}-\d{2}( \d{2}:\d{2}:\d{2})?", str(s))`,
i.e. the pattern is anchored at the start of the string only.  The matcher is
embedded as an explicit consumer of the character list: four digits, a dash,
two digits, a dash, two digits, then the optional time group (which never
affects whether a match exists, since it may match the empty string). -/

def consumeDigits : Nat → List Char → Option (List Char)
  | 0, l => some l
  | _ + 1, [] => none
  | n + 1, c :: l => if c.isDigit then consumeDigits n l else none

def consumeChar (c : Char) : List Char → Option (List Char)
  | [] => none
  | d :: l => if d = c then some l else none

def matchMandatoryDate (l : List Char) : Option (List Char) :=
  ((((consumeDigits 4 l).bind (consumeChar '-')).bind
      (fun x => consumeDigits 2 x)).bind (consumeChar '-')).bind
    (fun x => consumeDigits 2 x)

def matchOptionalTime (l : List Char) : List Char :=
  match ((((((consumeChar ' ' l).bind (fun x => consumeDigits 2 x)).bind
      (consumeChar ':')).bind (fun x => consumeDigits 2 x)).bind
      (consumeChar ':')).bind (fun x => consumeDigits 2 x)) with
  | some rest => rest
  | none => l

def is_timestamp (s : String) : Bool :=
  ((matchMandatoryDate s.data).map matchOptionalTime).isSome

/-! ### Columns of cell values and `check_or_convert_timestamp_columns` (utils.py 33-47)

A cell is either a raw string, an already-converted datetime (`pd.to_datetime`
keeps the parsed text as its witness), or missing (`NaN`/`NaT`).  The Python
function checks, per listed column, whether every non-missing value passes
`is_timestamp`; if so and `convert_datetimes` is true it rebinds the column to
the converted values, otherwise it only writes a log line.  No branch raises. -/

inductive CellValue
  | vstr : String → CellValue
  | vdt : String → CellValue
  | vna : CellValue
deriving DecidableEq

def cell_is_timestamp : CellValue → Bool
  | .vstr s => is_timestamp s
  | .vdt _ => true
  | .vna => true

def convert_timestamp_value : CellValue → CellValue
  | .vstr s => .vdt s
  | .vdt s => .vdt s
  | .vna => .vna

/-- A named-column table: the only dataframe features the checker touches. -/
abbrev Table := List (String × List CellValue)

/-- Embeds `all(df.loc[:, column].dropna().apply(is_timestamp))`. -/
def checkColumn (col : List CellValue) : Bool :=
  (col.filter (fun c => c ≠ CellValue.vna)).all cell_is_timestamp

def updateColumn (tbl : Table) (name : String) (convert_datetimes : Bool) : Table :=
  tbl.map (fun c =>
    if c.1 = name then
      if checkColumn c.2 ∧ convert_datetimes then (c.1, c.2.map convert_timestamp_value)
      else c
    else c)

def check_or_convert_timestamp_columns
    (mapper : List (Table × List String)) (convert_datetimes : Bool) : List Table :=
  mapper.map (fun pair => pair.2.foldl (fun t name => updateColumn t name convert_datetimes) pair.1)

/-! ### Typed rows for the analytic functions

Timestamps are rational seconds.  `pd.Timedelta(hours=h)` / `timedelta(hours=h)`
is `3600 * h` seconds. -/

def hoursToSeconds (h : ℚ) : ℚ := 3600 * h

structure EventRow where
  sid : ℕ
  event_time : ℚ
deriving DecidableEq

structure IntervalRow where
  sid : ℕ
  starttime : ℚ
  endtime : ℚ
deriving DecidableEq

structure PointRow where
  sid : ℕ
  charttime : Option ℚ
deriving DecidableEq

structure DoseRow where
  sid : ℕ
  starttime : ℚ
  endtime : ℚ
  amount : ℚ
deriving DecidableEq

/-- First-occurrence deduplication: the behaviour of both
`Series.unique()` and `DataFrame.drop_duplicates()`. -/
def dropDups [DecidableEq α] (l : List α) : List α :=
  l.foldl (fun acc x => if x ∈ acc then acc else acc ++ [x]) []

/-- Keys of a `groupby`: pandas sorts the distinct keys ascending. -/
def groupKeys (l : List ℕ) : List ℕ :=
  List.insertionSort (· ≤ ·) (dropDups l)

/-! ### `continous_intervention_after_event` (utils.py 126-220) -/

/-- Embeds `pd.merge(event, intervention, on=sample_indicator, how="inner")`. -/
def innerJoinCont (event : List EventRow) (intervention : List IntervalRow) :
    List (EventRow × IntervalRow) :=
  event.flatMap (fun e =>
    (intervention.filter (fun i => i.sid = e.sid)).map (fun i => (e, i)))

/-- The boolean mask applied to the merged frame (utils.py 204-218). -/
def continousKeep (time_window : ℚ) (p : EventRow × IntervalRow) : Bool :=
  (decide (p.2.starttime > p.1.event_time) &&
      decide (p.2.starttime < p.1.event_time + time_window)) ||
    (decide (p.2.starttime < p.1.event_time) &&
      decide (p.2.endtime > p.1.event_time))

def continous_intervention_after_event (event : List EventRow)
    (intervention : List IntervalRow) (observation_time : ℚ) : List ℕ :=
  let time_window := hoursToSeconds observation_time
  let merged_df := innerJoinCont event intervention
  dropDups ((merged_df.filter (continousKeep time_window)).map (fun p => p.1.sid))

/-! ### `calculate_time_overlap` (utils.py 223-238) -/

def calculate_time_overlap (event_time observation_time
    intervention_time_start intervention_time_end : ℚ) : ℚ :=
  let observation_window_end := event_time + hoursToSeconds observation_time
  if intervention_time_start ≤ observation_window_end ∧
      intervention_time_end ≥ event_time then
    let overlap_start := max intervention_time_start event_time
    let overlap_end := min intervention_time_end observation_window_end
    (overlap_end - overlap_start) / 3600
  else 0

/-! ### `dosage_during_event` (utils.py 241-356) -/

/-- Embeds `pd.merge(event, intervention, on=sample_indicator, how="left")`:
an event row with no matching intervention survives with missing
intervention fields. -/
def leftJoinDose (event : List EventRow) (intervention : List DoseRow) :
    List (ℕ × ℚ × Option (ℚ × ℚ × ℚ)) :=
  event.flatMap (fun e =>
    let matched := intervention.filter (fun i => i.sid = e.sid)
    if matched.isEmpty then [(e.sid, e.event_time, none)]
    else matched.map (fun i => (e.sid, e.event_time, some (i.starttime, i.endtime, i.amount))))

/-- Per-row `dosage_per_hour * overlap_in_hours` (utils.py 319-343); rows
born of the left join with no intervention carry `NaN`, which the final
`groupby(...).agg("sum")` skips — modelled by `none`. -/
def doseContribution (observation_time : ℚ) (r : ℕ × ℚ × Option (ℚ × ℚ × ℚ)) : Option ℚ :=
  r.2.2.map (fun iv =>
    let duration_of_intervention := iv.2.1 - iv.1
    let dosage_per_hour := iv.2.2 / duration_of_intervention * 3600
    dosage_per_hour * calculate_time_overlap r.2.1 observation_time iv.1 iv.2.1)

def dosage_during_event (event : List EventRow) (intervention : List DoseRow)
    (observation_time : ℚ) (intervention_dosage_indicator : String)
    (check_for_duplicates : Bool := true) : String × List (ℕ × ℚ) :=
  let merged_raw := leftJoinDose event intervention
  let merged_df := if check_for_duplicates then dropDups merged_raw else merged_raw
  ("total_" ++ intervention_dosage_indicator,
    (groupKeys (merged_df.map (fun r => r.1))).map (fun s =>
      (s, ((merged_df.filter (fun r => r.1 = s)).filterMap
            (doseContribution observation_time)).sum)))

/-! ### `count_events_during_observation` (utils.py 359-445) -/

def innerJoinPoint (event : List EventRow) (intervention : List PointRow) :
    List (EventRow × PointRow) :=
  event.flatMap (fun e =>
    (intervention.filter (fun i => i.sid = e.sid)).map (fun i => (e, i)))

/-- Merged frame after `dropna(subset=[intervention_time_indicator])`:
rows as `(sample, event_time, charttime)`. -/
def mergedPoint (event : List EventRow) (intervention : List PointRow) :
    List (ℕ × ℚ × ℚ) :=
  (innerJoinPoint event intervention).filterMap (fun p =>
    p.2.charttime.map (fun t => (p.1.sid, p.1.event_time, t)))

/-- The row flag's condition (utils.py 430-437): closed on both ends. -/
def inObservation (observation_time : ℚ) (r : ℕ × ℚ × ℚ) : Bool :=
  decide (r.2.2 ≥ r.2.1) && decide (r.2.2 ≤ r.2.1 + hoursToSeconds observation_time)

def count_events_during_observation (event : List EventRow)
    (intervention : List PointRow) (observation_time : ℚ) : List (ℕ × ℕ) :=
  let merged_df := mergedPoint event intervention
  let flags := merged_df.map (fun r =>
    (r.1, if inObservation observation_time r then (1 : ℕ) else 0))
  (groupKeys (merged_df.map (fun r => r.1))).map (fun s =>
    (s, ((flags.filter (fun f => f.1 = s)).map (fun f => f.2)).sum))

/-! ### `time_based_violation` (utils.py 534-624)

State: the previous row `tmp` (the initial empty dict, whose key lookup
raises the caught `KeyError`, is `none`) and the accumulated
`violation_ids`.  Each loop iteration is one `tbvStep`. -/

structure Rec where
  sid : ℕ
  valuenum : ℚ
  charttime : ℚ
deriving DecidableEq

def tbvStep (threshold delta_value : ℚ) (violation : String) :
    Option Rec × List ℕ → Rec → Option Rec × List ℕ
  | (none, acc), row => (some row, acc)
  | (some tmp, acc), row =>
    if row.sid = tmp.sid then
      if violation = "low" then
        if row.valuenum > threshold then (some row, acc)
        else if row.valuenum ≤ threshold ∧ tmp.valuenum ≤ threshold ∧
            row.charttime - tmp.charttime < hoursToSeconds delta_value then
          (some tmp, acc)
        else if row.valuenum ≤ threshold ∧ tmp.valuenum ≤ threshold ∧
            row.charttime - tmp.charttime ≥ hoursToSeconds delta_value then
          (some row, acc ++ [row.sid])
        else (some tmp, acc)
      else if violation = "high" then
        if row.valuenum < threshold then (some row, acc)
        else if row.valuenum ≥ threshold ∧ tmp.valuenum ≥ threshold ∧
            row.charttime - tmp.charttime < hoursToSeconds delta_value then
          (some tmp, acc)
        else if row.valuenum ≥ threshold ∧ tmp.valuenum ≥ threshold ∧
            row.charttime - tmp.charttime ≥ hoursToSeconds delta_value then
          (some row, acc ++ [row.sid])
        else (some tmp, acc)
      else (some tmp, acc)
    else (some row, acc)

def time_based_violation (threshold delta_value : ℚ) (value_dict : List Rec)
    (violation : String := "high") : List ℕ :=
  (value_dict.foldl (tbvStep threshold delta_value violation) (none, [])).2

/-! ### Scenario data from `tests/test_utils.py::test_dosage_for_event`

Events all at `2023-10-13 08:00:00`; seconds are counted from midnight of
that day (8:00 = 28800, 8:15 = 29700, 8:30 = 30600, 7:00 = 25200,
7:30 = 27000, 9:15 = 33300, 9:30 = 34200). -/

def ev3 : List EventRow :=
  [⟨1, 28800⟩, ⟨1, 28800⟩, ⟨2, 28800⟩, ⟨2, 28800⟩, ⟨3, 28800⟩, ⟨3, 28800⟩,
    ⟨4, 28800⟩, ⟨5, 28800⟩]

def iv3 : List DoseRow :=
  [⟨1, 29700, 30600, 150⟩, ⟨1, 25200, 30600, 150⟩, ⟨2, 25200, 34200, 150⟩,
    ⟨2, 25200, 27000, 150⟩, ⟨3, 33300, 34200, 150⟩, ⟨3, 29700, 30600, 150⟩,
    ⟨4, 29700, 34200, 150⟩]

/-! ### Library lemmas about the embedding's building blocks -/

lemma mem_foldl_dedup {α : Type} [DecidableEq α] (l : List α) :
    ∀ (acc : List α) (x : α),
      x ∈ l.foldl (fun acc x => if x ∈ acc then acc else acc ++ [x]) acc ↔
        x ∈ acc ∨ x ∈ l := by
  induction l with
  | nil => intro acc x; simp
  | cons a l ih =>
    intro acc x
    rw [List.foldl_cons, ih]
    by_cases h : a ∈ acc
    · rw [if_pos h]
      constructor
      · rintro (hx | hx)
        · exact Or.inl hx
        · exact Or.inr (List.mem_cons_of_mem a hx)
      · rintro (hx | hx)
        · exact Or.inl hx
        · rcases List.mem_cons.mp hx with rfl | hx
          · exact Or.inl h
          · exact Or.inr hx
    · rw [if_neg h]
      simp only [List.mem_append, List.mem_singleton, List.mem_cons]
      tauto

lemma mem_dropDups {α : Type} [DecidableEq α] (l : List α) (x : α) :
    x ∈ dropDups l ↔ x ∈ l := by
  unfold dropDups
  rw [mem_foldl_dedup]
  simp

lemma mem_groupKeys (l : List ℕ) (x : ℕ) : x ∈ groupKeys l ↔ x ∈ l := by
  unfold groupKeys
  rw [(List.perm_insertionSort (· ≤ ·) (dropDups l)).mem_iff, mem_dropDups]

lemma mem_map_keyFn {β : Type} (keys : List ℕ) (f : ℕ → β) (s : ℕ) (c : β) :
    (s, c) ∈ keys.map (fun k => (k, f k)) ↔ s ∈ keys ∧ c = f s := by
  simp only [List.mem_map, Prod.mk.injEq]
  constructor
  · rintro ⟨k, hk, rfl, rfl⟩
    exact ⟨hk, rfl⟩
  · rintro ⟨hs, rfl⟩
    exact ⟨s, hs, rfl, rfl⟩

lemma sum_map_flag {α : Type} (p : α → Bool) (l : List α) :
    (l.map (fun a => if p a then (1 : ℕ) else 0)).sum = l.countP p := by
  induction l with
  | nil => rfl
  | cons a l ih =>
    simp only [List.map_cons, List.sum_cons, List.countP_cons, ih]
    cases h : p a <;> simp [h, Nat.add_comm]

/-! ### Claims -/

/-- Claim C2, counterexample: the claim asserts that a joined row with
`start = event_time` and `end > event_time` is kept (spec rule
`start ≤ event ∧ end > event`), but the code's second disjunct compares
strictly (`start < event`), so the boundary row is dropped: with an event at
time 0 and an interval `[0, 3600]`, the analysis returns no sample at all. -/
theorem continous_boundary_start_dropped :
    continous_intervention_after_event [⟨1, 0⟩] [⟨1, 0, 3600⟩] 1 = [] ∧
      (0 : ℚ) ≤ 0 ∧ (3600 : ℚ) > 0 := by
  refine ⟨?_, le_refl 0, by norm_num⟩
  norm_num [continous_intervention_after_event, innerJoinCont, continousKeep,
    hoursToSeconds, List.flatMap, List.filter, dropDups, List.foldl]

/-- Claim C2 (amended): in `continous_intervention_after_event`, a joined row
survives the temporal filter iff
`(start > event_time ∧ start < event_time + window) ∨
 (start < event_time ∧ end > event_time)` — the second disjunct's lower
bound is strict, so a row with `start = event_time` is dropped. -/
theorem continous_filter_strict_iff (event : List EventRow)
    (intervention : List IntervalRow) (observation_time : ℚ)
    (p : EventRow × IntervalRow) :
    p ∈ (innerJoinCont event intervention).filter
        (continousKeep (hoursToSeconds observation_time)) ↔
      p ∈ innerJoinCont event intervention ∧
        ((p.2.starttime > p.1.event_time ∧
            p.2.starttime < p.1.event_time + hoursToSeconds observation_time) ∨
          (p.2.starttime < p.1.event_time ∧ p.2.endtime > p.1.event_time)) := by
  rw [List.mem_filter]
  simp [continousKeep]

/-- Claim C3, counterexample: the claim asserts that a degenerate interval
(`end < start`) yields exactly `0`; on `event_time = 0`, `window = 2`,
`start = 1800`, `end = 600` the overlap formula returns `-1/3`, not `0`. -/
theorem calculate_time_overlap_degenerate_negative :
    calculate_time_overlap 0 2 1800 600 = -(1/3) ∧
      calculate_time_overlap 0 2 1800 600 ≠ 0 := by
  constructor <;> norm_num [calculate_time_overlap, hoursToSeconds]

/-- Claim C3 (amended): for `window ≥ 0`, when `end ≥ start` the overlap lies in
`[0, min window ((end − start)/3600)]` hours; when `end < start` the function
returns a value `≤ 0` without raising (it is *not* clamped to exactly `0`:
when the degenerate interval meets the window condition the result is
negative). -/
theorem calculate_time_overlap_bounds (event_time observation_time s en : ℚ)
    (hw : 0 ≤ observation_time) :
    (s ≤ en → 0 ≤ calculate_time_overlap event_time observation_time s en ∧
      calculate_time_overlap event_time observation_time s en ≤
        min observation_time ((en - s) / 3600)) ∧
    (en < s → calculate_time_overlap event_time observation_time s en ≤ 0) := by
  simp only [calculate_time_overlap, hoursToSeconds]
  constructor
  · intro hse
    split_ifs with h
    · obtain ⟨h1, h2⟩ := h
      have m1 : min en (event_time + 3600 * observation_time) ≤ en := min_le_left _ _
      have m2 : min en (event_time + 3600 * observation_time) ≤
          event_time + 3600 * observation_time := min_le_right _ _
      have m3 : s ≤ max s event_time := le_max_left _ _
      have m4 : event_time ≤ max s event_time := le_max_right _ _
      have m5 : max s event_time ≤ min en (event_time + 3600 * observation_time) :=
        le_min (max_le hse h2) (max_le h1 (by linarith))
      refine ⟨by linarith, le_min ?_ ?_⟩ <;> linarith
    · exact ⟨le_refl 0, le_min hw (div_nonneg (by linarith) (by norm_num))⟩
  · intro hes
    split_ifs with h
    · obtain ⟨h1, h2⟩ := h
      have m1 : min en (event_time + 3600 * observation_time) ≤ en := min_le_left _ _
      have m3 : s ≤ max s event_time := le_max_left _ _
      linarith
    · exact le_refl 0

/-- Witness for `calculate_time_overlap_bounds` at concrete inputs
(`window = 1`, interval `[0, 3600]`, and a degenerate interval `[3600, 0]`). -/
theorem calculate_time_overlap_bounds_witness :
    ((0 : ℚ) ≤ 3600 → 0 ≤ calculate_time_overlap 0 1 0 3600 ∧
      calculate_time_overlap 0 1 0 3600 ≤ min 1 ((3600 - 0) / 3600)) ∧
    ((0 : ℚ) < 3600 → calculate_time_overlap 0 1 3600 0 ≤ 0) :=
  ⟨(calculate_time_overlap_bounds 0 1 0 3600 (by norm_num)).1,
    (calculate_time_overlap_bounds 0 1 3600 0 (by norm_num)).2⟩

/-- Claim C4, counterexample: three readings of sample `1`, all `≥ 150` and each
`3` hours after the previous, make the scan emit sample `1` twice — the
returned list is `[1, 1]`, so a flagged sample is *not* collapsed to a single
entry. -/
theorem time_based_violation_emits_duplicates :
    time_based_violation 150 3 [⟨1, 200, 0⟩, ⟨1, 200, 10800⟩, ⟨1, 200, 21600⟩] "high"
      = [1, 1] := by
  norm_num [time_based_violation, tbvStep, hoursToSeconds, List.foldl,
    show ("high" : String) ≠ "low" from by decide]

lemma tbvStep_other_sid (thr d : ℚ) (m : String) (tmp : Rec) (acc : List ℕ)
    (r : Rec) (h : ¬r.sid = tmp.sid) :
    tbvStep thr d m (some tmp, acc) r = (some r, acc) := by
  simp [tbvStep, h]

lemma tbvStep_high_below (thr d : ℚ) (tmp : Rec) (acc : List ℕ) (r : Rec)
    (h1 : r.sid = tmp.sid) (h2 : r.valuenum < thr) :
    tbvStep thr d "high" (some tmp, acc) r = (some r, acc) := by
  simp [tbvStep, h1, h2, show ("high" : String) ≠ "low" from by decide]

lemma tbvStep_high_subanchor (thr d : ℚ) (tmp : Rec) (acc : List ℕ) (r : Rec)
    (h1 : r.sid = tmp.sid) (h2 : thr ≤ r.valuenum) (h3 : tmp.valuenum < thr) :
    tbvStep thr d "high" (some tmp, acc) r = (some tmp, acc) := by
  simp [tbvStep, h1, not_lt.mpr h2, h3.not_le,
    show ("high" : String) ≠ "low" from by decide]

lemma tbvStep_acc (thr d : ℚ) (m : String) (st : Option Rec × List ℕ) (r : Rec) :
    (tbvStep thr d m st r).2 = st.2 ∨ (tbvStep thr d m st r).2 = st.2 ++ [r.sid] := by
  obtain ⟨o, acc⟩ := st
  cases o with
  | none => exact Or.inl rfl
  | some tmp =>
    rw [tbvStep]
    split_ifs <;> simp

lemma tbv_foldl_ids (thr d : ℚ) (m : String) :
    ∀ (rows : List Rec) (st : Option Rec × List ℕ) (x : ℕ),
      x ∈ (rows.foldl (tbvStep thr d m) st).2 → x ∈ st.2 ∨ ∃ r ∈ rows, r.sid = x := by
  intro rows
  induction rows with
  | nil => intro st x h; exact Or.inl h
  | cons r rows ih =>
    intro st x h
    rw [List.foldl_cons] at h
    rcases ih (tbvStep thr d m st r) x h with hx | ⟨r', hr', hx⟩
    · rcases tbvStep_acc thr d m st r with heq | heq
      · rw [heq] at hx
        exact Or.inl hx
      · rw [heq, List.mem_append] at hx
        rcases hx with hx | hx
        · exact Or.inl hx
        · exact Or.inr ⟨r, List.mem_cons_self r rows, (List.mem_singleton.mp hx).symm⟩
    · exact Or.inr ⟨r', List.mem_cons_of_mem r hr', hx⟩

/-- Claim C4 (amended): the list returned by `time_based_violation` contains one
entry per emitted violation, so a sample that triggers several qualifying
pairs appears several times (duplicates are *not* collapsed); every entry is
the sample id of some record of the input stream. -/
theorem time_based_violation_ids_subset (thr d : ℚ) (rows : List Rec)
    (mode : String) (x : ℕ) (hx : x ∈ time_based_violation thr d rows mode) :
    ∃ r ∈ rows, r.sid = x := by
  rcases tbv_foldl_ids thr d mode rows (none, []) x hx with h | h
  · exact absurd h (List.not_mem_nil x)
  · exact h

/-- Witness for `time_based_violation_ids_subset` on the duplicate-emitting
stream. -/
theorem time_based_violation_ids_subset_witness :
    ∃ r ∈ ([⟨1, 200, 0⟩, ⟨1, 200, 10800⟩, ⟨1, 200, 21600⟩] : List Rec), r.sid = 1 :=
  time_based_violation_ids_subset 150 3 _ "high" 1
    (by norm_num [time_based_violation, tbvStep, hoursToSeconds, List.foldl,
      show ("high" : String) ≠ "low" from by decide])

/-- Claim C5, counterexample: in mode `"high"` the stored previous record *can*
hold a sub-threshold value when an above-threshold record of the same sample
arrives: after `[⟨1,200,0⟩, ⟨1,100,3600⟩]` (threshold 150) the scan state is
the sub-threshold record `⟨1,100,3600⟩`, and the next incoming record
`⟨1,200,7200⟩` has the same sample id and value `≥ 150` — so the
`previous.value < threshold` comparison branch is reachable, contrary to the
claim. -/
theorem tbv_subthreshold_anchor_reachable :
    ([⟨1, 200, 0⟩, ⟨1, 100, 3600⟩] : List Rec).foldl (tbvStep 150 3 "high") (none, [])
        = (some ⟨1, 100, 3600⟩, []) ∧
      (⟨1, 100, 3600⟩ : Rec).valuenum < 150 ∧
      (150 : ℚ) ≤ (⟨1, 200, 7200⟩ : Rec).valuenum ∧
      (⟨1, 200, 7200⟩ : Rec).sid = (⟨1, 100, 3600⟩ : Rec).sid := by
    refine ⟨?_, by norm_num, by norm_num, rfl⟩
    norm_num [tbvStep, hoursToSeconds, List.foldl,
      show ("high" : String) ≠ "low" from by decide]

/-- Claim C5 (amended): in mode `"high"`, when an incoming record with
`value ≥ threshold` is compared against a stored same-sample previous record
whose value is *below* the threshold (reachable, since a sub-threshold
reading resets `previous` to itself), no violation is emitted and the state
is left unchanged. -/
theorem tbv_subthreshold_anchor_no_emission (thr d : ℚ) (tmp : Rec)
    (acc : List ℕ) (r : Rec) (hsid : r.sid = tmp.sid) (hval : thr ≤ r.valuenum)
    (htmp : tmp.valuenum < thr) :
    tbvStep thr d "high" (some tmp, acc) r = (some tmp, acc) :=
  tbvStep_high_subanchor thr d tmp acc r hsid hval htmp

/-- Witness for `tbv_subthreshold_anchor_no_emission` at the state reached in
the counterexample. -/
theorem tbv_subthreshold_anchor_no_emission_witness :
    tbvStep 150 3 "high" (some ⟨1, 100, 3600⟩, []) ⟨1, 200, 7200⟩
      = (some ⟨1, 100, 3600⟩, []) :=
  tbv_subthreshold_anchor_no_emission 150 3 ⟨1, 100, 3600⟩ [] ⟨1, 200, 7200⟩
    rfl (by norm_num) (by norm_num)

lemma tbv_subthreshold_state_stuck (thr d : ℚ) :
    ∀ (rows : List Rec) (tmp : Rec) (acc : List ℕ),
      tmp.valuenum < thr → (∀ r ∈ rows, r.sid = tmp.sid) →
      ∃ tmp', rows.foldl (tbvStep thr d "high") (some tmp, acc) = (some tmp', acc) ∧
        tmp'.valuenum < thr ∧ tmp'.sid = tmp.sid := by
  intro rows
  induction rows with
  | nil => intro tmp acc hv _; exact ⟨tmp, rfl, hv, rfl⟩
  | cons r rows ih =>
    intro tmp acc hv hall
    have hr : r.sid = tmp.sid := hall r (List.mem_cons_self r rows)
    rw [List.foldl_cons]
    by_cases hlt : r.valuenum < thr
    · rw [tbvStep_high_below thr d tmp acc r hr hlt]
      obtain ⟨tmp', heq, hv', hsid'⟩ := ih r acc hlt
        (fun r' hr' => (hall r' (List.mem_cons_of_mem r hr')).trans hr.symm)
      exact ⟨tmp', heq, hv', hsid'.trans hr⟩
    · rw [tbvStep_high_subanchor thr d tmp acc r hr (not_lt.mp hlt) hv]
      exact ih tmp acc hv (fun r' hr' => hall r' (List.mem_cons_of_mem r hr'))

/-- Claim C6: in mode `"high"`, (a) a step can only emit a violation when the
stored previous record exists, has the same sample id, and both it and the
incoming record are `≥ threshold`; (b) once the stored record for a sample is
sub-threshold, scanning any further records of that same sample emits
nothing — so two above-threshold readings separated by a sub-threshold
reading of the same sample never combine to trigger a violation. -/
theorem tbv_high_reset_law (thr d : ℚ) :
    (∀ (st : Option Rec) (acc : List ℕ) (r : Rec),
      (tbvStep thr d "high" (st, acc) r).2 ≠ acc →
      ∃ tmp, st = some tmp ∧ tmp.sid = r.sid ∧ thr ≤ tmp.valuenum ∧
        thr ≤ r.valuenum) ∧
    (∀ (rows : List Rec) (tmp : Rec) (acc : List ℕ),
      tmp.valuenum < thr → (∀ r ∈ rows, r.sid = tmp.sid) →
      (rows.foldl (tbvStep thr d "high") (some tmp, acc)).2 = acc) := by
  constructor
  · intro st acc r h
    cases st with
    | none => exact absurd rfl h
    | some tmp =>
      by_cases h1 : r.sid = tmp.sid
      · by_cases h2 : r.valuenum < thr
        · rw [tbvStep_high_below thr d tmp acc r h1 h2] at h
          exact absurd rfl h
        · by_cases h3 : thr ≤ tmp.valuenum
          · exact ⟨tmp, rfl, h1.symm, h3, not_lt.mp h2⟩
          · rw [tbvStep_high_subanchor thr d tmp acc r h1 (not_lt.mp h2)
              (not_le.mp h3)] at h
            exact absurd rfl h
      · rw [tbvStep_other_sid thr d "high" tmp acc r h1] at h
        exact absurd rfl h
  · intro rows tmp acc hv hall
    obtain ⟨tmp', heq, -, -⟩ := tbv_subthreshold_state_stuck thr d rows tmp acc hv hall
    rw [heq]

/-- Witness for `tbv_high_reset_law`: part (a) at an emitting step (two
`≥ 150` readings of sample 1 three hours apart), part (b) at a sub-threshold
anchor followed by an above-threshold reading of the same sample. -/
theorem tbv_high_reset_law_witness :
    (∃ tmp, some (⟨1, 180, 0⟩ : Rec) = some tmp ∧
      tmp.sid = (⟨1, 190, 10800⟩ : Rec).sid ∧ (150 : ℚ) ≤ tmp.valuenum ∧
      (150 : ℚ) ≤ (⟨1, 190, 10800⟩ : Rec).valuenum) ∧
    (([⟨1, 200, 7200⟩] : List Rec).foldl (tbvStep 150 3 "high")
        (some ⟨1, 100, 3600⟩, [])).2 = [] :=
  ⟨(tbv_high_reset_law 150 3).1 (some ⟨1, 180, 0⟩) [] ⟨1, 190, 10800⟩
      (by norm_num [tbvStep, hoursToSeconds,
        show ("high" : String) ≠ "low" from by decide]),
    (tbv_high_reset_law 150 3).2 [⟨1, 200, 7200⟩] ⟨1, 100, 3600⟩ []
      (by norm_num) (by intro r hr; rw [List.mem_singleton.mp hr])⟩

/-- Claim C7, counterexample: `count_events_during_observation` builds its
groups from an *inner* join, so a sample of the event table with no
intervention rows is absent from the output instead of appearing with count
zero: with events for samples 1 and 2 but a single intervention for sample 1,
the result is `[(1, 1)]` and `(2, 0)` is not in it. -/
theorem count_events_inner_join_drops_sample :
    count_events_during_observation [⟨1, 0⟩, ⟨2, 0⟩] [⟨1, some 0⟩] 1 = [(1, 1)] ∧
      (2, 0) ∉ count_events_during_observation [⟨1, 0⟩, ⟨2, 0⟩] [⟨1, some 0⟩] 1 := by
  have h : count_events_during_observation [⟨1, 0⟩, ⟨2, 0⟩] [⟨1, some 0⟩] 1 = [(1, 1)] := by
    norm_num [count_events_during_observation, mergedPoint, innerJoinPoint, inObservation,
      hoursToSeconds, List.flatMap, List.filter, List.filterMap, dropDups, groupKeys,
      List.insertionSort, List.orderedInsert, List.foldl, List.sum]
  refine ⟨h, ?_⟩
  rw [h]
  decide

lemma count_group_eq (w : ℚ) (merged : List (ℕ × ℚ × ℚ)) (s : ℕ) :
    (((merged.map (fun r => (r.1, if inObservation w r then (1 : ℕ) else 0))).filter
        (fun f => f.1 = s)).map (fun f => f.2)).sum =
      ((merged.filter (fun r => r.1 = s)).countP (inObservation w)) := by
  rw [List.filter_map, List.map_map]
  exact sum_map_flag (inObservation w) _

/-- Claim C7 (amended): `count_events_during_observation` returns one row per
sample that has at least one joined (non-missing-time) intervention row —
samples with no interventions are dropped by the inner join, rather than
reported with count zero — and the count of such a row is the number of
joined rows whose intervention time `t` satisfies
`event_time ≤ t ≤ event_time + window` (closed on both ends). -/
theorem count_events_joined_samples_iff (event : List EventRow)
    (intervention : List PointRow) (observation_time : ℚ) (s : ℕ) (c : ℕ) :
    (s, c) ∈ count_events_during_observation event intervention observation_time ↔
      (s ∈ (mergedPoint event intervention).map (fun r => r.1) ∧
        c = ((mergedPoint event intervention).filter (fun r => r.1 = s)).countP
          (inObservation observation_time)) := by
  unfold count_events_during_observation
  rw [mem_map_keyFn, mem_groupKeys, count_group_eq]

lemma leftJoinDose_key_mem (event : List EventRow) (intervention : List DoseRow)
    (e : EventRow) (he : e ∈ event) :
    ∃ r ∈ leftJoinDose event intervention, r.1 = e.sid := by
  unfold leftJoinDose
  cases hm : intervention.filter (fun i => i.sid = e.sid) with
  | nil =>
    refine ⟨(e.sid, e.event_time, none), List.mem_flatMap.mpr ⟨e, he, ?_⟩, rfl⟩
    simp [hm]
  | cons i is =>
    refine ⟨(e.sid, e.event_time, some (i.starttime, i.endtime, i.amount)),
      List.mem_flatMap.mpr ⟨e, he, ?_⟩, rfl⟩
    simp only [hm, List.isEmpty_cons, List.map_cons]
    exact List.mem_cons_self _ _

lemma leftJoinDose_no_match_none (event : List EventRow)
    (intervention : List DoseRow) (s : ℕ) (hiv : ∀ i ∈ intervention, i.sid ≠ s) :
    ∀ r ∈ leftJoinDose event intervention, r.1 = s → r.2.2 = none := by
  intro r hr hrs
  unfold leftJoinDose at hr
  obtain ⟨e, he, hre⟩ := List.mem_flatMap.mp hr
  cases hm : intervention.filter (fun i => i.sid = e.sid) with
  | nil =>
    rw [hm] at hre
    have hre' : r ∈ [(e.sid, e.event_time, (none : Option (ℚ × ℚ × ℚ)))] := hre
    rw [List.mem_singleton.mp hre']
  | cons i is =>
    rw [hm] at hre
    have hre' : r ∈ (i :: is).map
        (fun i => (e.sid, e.event_time, some (i.starttime, i.endtime, i.amount))) := hre
    obtain ⟨a, ha, har⟩ := List.mem_map.mp hre'
    exfalso
    have ha' : a ∈ intervention.filter (fun i => i.sid = e.sid) := hm ▸ ha

    obtain ⟨hamem, hasid⟩ := List.mem_filter.mp ha'
    apply hiv a hamem
    have h1 : r.1 = e.sid := by rw [← har]
    calc a.sid = e.sid := by simpa using hasid
    _ = s := h1 ▸ hrs

/-- Claim C8: `dosage_during_event` aggregates per-row
`rate × overlap_hours` by sample using summation, names the output column
`total_<dosage-field-name>`, and yields `0` for samples with no intervention
rows; on the Scenario-3 data (window 1h, `amount = 150` intervals) the
per-subject totals for subjects 1..5 are exactly
`[200, 60, 150, 90, 0]`. -/
theorem dosage_during_event_totals :
    (dosage_during_event ev3 iv3 1 "amount" true
        = ("total_amount", [(1, 200), (2, 60), (3, 150), (4, 90), (5, 0)])) ∧
    (∀ (event : List EventRow) (intervention : List DoseRow)
        (observation_time : ℚ) (ind : String) (s : ℕ),
      s ∈ event.map EventRow.sid → (∀ i ∈ intervention, i.sid ≠ s) →
      (s, (0 : ℚ)) ∈ (dosage_during_event event intervention observation_time ind true).2) := by
  constructor
  · norm_num [dosage_during_event, ev3, iv3, leftJoinDose, dropDups, groupKeys,
      List.insertionSort, List.orderedInsert, doseContribution, calculate_time_overlap,
      hoursToSeconds, List.flatMap, List.filter, List.filterMap, List.foldl, List.sum,
      show "total_" ++ "amount" = "total_amount" from rfl]
  · intro event intervention w ind s hs hiv
    obtain ⟨e, he, hes⟩ := List.mem_map.mp hs
    obtain ⟨r0, hr0, hr0s⟩ := leftJoinDose_key_mem event intervention e he
    show (s, (0 : ℚ)) ∈ (groupKeys ((dropDups (leftJoinDose event intervention)).map
        (fun r => r.1))).map (fun k =>
          (k, (((dropDups (leftJoinDose event intervention)).filter
            (fun r => r.1 = k)).filterMap (doseContribution w)).sum))
    rw [mem_map_keyFn, mem_groupKeys]
    refine ⟨List.mem_map.mpr ⟨r0, (mem_dropDups _ _).mpr hr0, hr0s.trans hes⟩, ?_⟩
    have hnone : ∀ r ∈ (dropDups (leftJoinDose event intervention)).filter
        (fun r => r.1 = s), doseContribution w r = none := by
      intro r hrf
      obtain ⟨hrm, hr1⟩ := List.mem_filter.mp hrf
      have h2 := leftJoinDose_no_match_none event intervention s hiv r
        ((mem_dropDups _ _).mp hrm) (by simpa using hr1)
      unfold doseContribution
      rw [h2]
      rfl
    rw [List.filterMap_eq_nil_iff.mpr hnone]
    rfl

/-- Witness for `dosage_during_event_totals` part 2: a single event of sample
5 and an empty intervention table yield the row `(5, 0)`. -/
theorem dosage_during_event_totals_witness :
    (5, (0 : ℚ)) ∈ (dosage_during_event [⟨5, 0⟩] [] 1 "amount" true).2 :=
  dosage_during_event_totals.2 [⟨5, 0⟩] [] 1 "amount" 5 (by simp)
    (by intro i hi; exact absurd hi (List.not_mem_nil i))

/-- Claim C9, counterexample: with `convert_datetimes = True` the timestamp
check does *not* leave its input tables unchanged — a table whose
`event_time` column holds the raw string `2023-10-13` comes back with that
column rebound to converted datetime values, i.e. the input table object is
mutated in place. -/
theorem convert_datetimes_mutates_input :
    check_or_convert_timestamp_columns
        [([("event_time", [CellValue.vstr "2023-10-13"])], ["event_time"])] true ≠
      [[("event_time", [CellValue.vstr "2023-10-13"])]] ∧
    check_or_convert_timestamp_columns
        [([("event_time", [CellValue.vstr "2023-10-13"])], ["event_time"])] true =
      [[("event_time", [CellValue.vdt "2023-10-13"])]] := by
  constructor <;> decide

/-- Claim C9 (amended): the timestamp check leaves every input table unchanged
when `convert_datetimes` is `False`; with `convert_datetimes = True` the
listed timestamp columns are converted in place (see the counterexample), and
this in-place conversion is the only way any analytic operation touches its
input tables. -/
theorem check_without_convert_is_identity (mapper : List (Table × List String)) :
    check_or_convert_timestamp_columns mapper false = mapper.map (fun p => p.1) := by
  unfold check_or_convert_timestamp_columns
  have hupd : ∀ (t : Table) (name : String), updateColumn t name false = t := by
    intro t name
    unfold updateColumn
    refine (List.map_congr_left ?_).trans (List.map_id t)
    intro c _
    by_cases hc : c.1 = name
    · rw [if_pos hc, if_neg]
      · rfl
      · rintro ⟨-, h⟩
        exact absurd h (by decide)
    · rw [if_neg hc]
      rfl
  have hfold : ∀ (names : List String) (t : Table),
      names.foldl (fun t name => updateColumn t name false) t = t := by
    intro names
    induction names with
    | nil => intro t; rfl
    | cons n ns ih =>
      intro t
      rw [List.foldl_cons, hupd t n]
      exact ih t
  simp only [hfold]

/-- Claim C1: contrary to the claim (and to the analytic functions' own
docstrings, which promise a `ValueError`), the timestamp checker raises
nothing when a required column fails the pattern check with
`convert_datetimes = False` — it logs and returns with the tables unchanged,
so the analytic call proceeds instead of aborting.  At the failing input
(`event_time` column holding `"hello"`): the pattern check fails, yet the
call completes identically with either flag value. -/
theorem checker_never_raises_on_bad_timestamp :
    cell_is_timestamp (CellValue.vstr "hello") = false ∧
    check_or_convert_timestamp_columns
        [([("event_time", [CellValue.vstr "hello"])], ["event_time"])] false =
      [[("event_time", [CellValue.vstr "hello"])]] ∧
    check_or_convert_timestamp_columns
        [([("event_time", [CellValue.vstr "hello"])], ["event_time"])] true =
      [[("event_time", [CellValue.vstr "hello"])]] :=
  ⟨by decide, by decide, by decide⟩

lemma bind_append_mono (f g : List Char → Option (List Char))
    (hf : ∀ l r e, f l = some r → f (l ++ e) = some (r ++ e))
    (hg : ∀ l r e, g l = some r → g (l ++ e) = some (r ++ e)) :
    ∀ l r e, (f l).bind g = some r → (f (l ++ e)).bind g = some (r ++ e) := by
  intro l r e h
  cases hf1 : f l with
  | none => rw [hf1] at h; exact absurd h (by simp)
  | some r1 =>
    rw [hf1] at h
    have h' : g r1 = some r := h
    rw [hf l r1 e hf1]
    exact hg r1 r e h'

lemma consumeDigits_append (n : ℕ) :
    ∀ (l r e : List Char), consumeDigits n l = some r →
      consumeDigits n (l ++ e) = some (r ++ e) := by
  induction n with
  | zero =>
    intro l r e h
    simp only [consumeDigits] at h ⊢
    rw [← Option.some.inj h]
  | succ n ih =>
    intro l r e h
    cases l with
    | nil => simp [consumeDigits] at h
    | cons c l' =>
      simp only [List.cons_append, consumeDigits] at h ⊢
      by_cases hc : c.isDigit
      · rw [if_pos hc] at h ⊢
        exact ih l' r e h
      · rw [if_neg hc] at h
        exact absurd h (by simp)

lemma consumeChar_append (c : Char) :
    ∀ (l r e : List Char), consumeChar c l = some r →
      consumeChar c (l ++ e) = some (r ++ e) := by
  intro l r e h
  cases l with
  | nil => simp [consumeChar] at h
  | cons d l' =>
    simp only [List.cons_append, consumeChar] at h ⊢
    by_cases hd : d = c
    · rw [if_pos hd] at h ⊢
      rw [← Option.some.inj h]
    · rw [if_neg hd] at h
      exact absurd h (by simp)

lemma matchMandatoryDate_append :
    ∀ (l r e : List Char), matchMandatoryDate l = some r →
      matchMandatoryDate (l ++ e) = some (r ++ e) :=
  bind_append_mono _ _
    (bind_append_mono _ _
      (bind_append_mono _ _
        (bind_append_mono _ _ (consumeDigits_append 4) (consumeChar_append '-'))
        (consumeDigits_append 2))
      (consumeChar_append '-'))
    (consumeDigits_append 2)

/-- Claim C10: `is_timestamp`'s pattern is anchored only at the start of the
string: whenever a character list is classified as a timestamp, appending any
trailing characters preserves the classification; in particular
`"2023-10-13T12:34:56"` and `"2023-10-13 12:34:56 PM"` are classified as
timestamps. -/
theorem is_timestamp_start_anchored :
    (∀ (l extra : List Char), is_timestamp ⟨l⟩ = true → is_timestamp ⟨l ++ extra⟩ = true) ∧
    is_timestamp "2023-10-13T12:34:56" = true ∧
    is_timestamp "2023-10-13 12:34:56 PM" = true := by
  refine ⟨?_, by decide, by decide⟩
  intro l extra h
  show ((matchMandatoryDate (l ++ extra)).map matchOptionalTime).isSome = true
  have h' : ((matchMandatoryDate l).map matchOptionalTime).isSome = true := h
  cases hm : matchMandatoryDate l with
  | none => rw [hm] at h'; exact absurd h' (by simp)
  | some r =>
    rw [matchMandatoryDate_append l r extra hm]
    rfl

/-- Witness for `is_timestamp_start_anchored`: appending `"T12:34:56"` to the
accepted date `"2023-10-13"` still classifies as a timestamp. -/
theorem is_timestamp_start_anchored_witness :
    is_timestamp ⟨"2023-10-13".data ++ "T12:34:56".data⟩ = true :=
  is_timestamp_start_anchored.1 "2023-10-13".data "T12:34:56".data (by decide)

end PyICU
